import Mathlib

/-!
# Verification of the oci-explorer referrer discovery, classification and
# envelope-unwrapping engine

This file gives a shallow embedding, in Lean 4, of the core logic of
`registry/client.go` of the oci-explorer repository:

* `classifyArtifactType` — the artifact classifier;
* the mutex-guarded referrer accumulator (`addReferrer` / `addReferrers`
  inside `InspectImage`);
* the pure layer-scanning core of `extractAttestationInfo`;
* the SBOM-layer match of `FetchSBOMContent`;
* the envelope-unwrapping logic of `fetchAndParseVEXBlob` (including a
  byte-level model of `encoding/json` unmarshalling into the attestation
  struct and of `encoding/base64` standard decoding);
* the control-flow of `extractSignatureInfo` (the signature enricher),
  with the external PEM/X.509/ASN.1 parsers abstracted as oracles.

Theorems about these definitions settle the specification claims.
Go strings are modelled as Lean `String`s, byte slices as `List Char`
(each char standing for one byte, code < 256), `map[string]string` as
association lists (`List (String × String)`, at most one entry per key in
any state the Go code builds), and `int64` sizes as `Int`.
-/

namespace OciExplorer

/-! ## String helpers

`strings.ToLower` / `strings.Contains` from the Go standard library,
restricted to the ASCII case-folding that all inputs in this code base
exercise (media types, predicate-type URIs and vendor annotation keys are
ASCII). `Char.toLower` lowers exactly the ASCII range, matching
`strings.ToLower` on ASCII input.
-/

/-- Model of `strings.ToLower` (ASCII range). -/
def lowerStr (s : String) : String := String.mk (s.data.map Char.toLower)

/-- Containment test: `subOf needle hay` models `strings.Contains(hay, needle)`:
`needle` occurs as a contiguous substring of `hay`. -/
def subOf (needle hay : String) : Bool :=
  hay.toList.tails.any (fun t => needle.toList.isPrefixOf t)

/-- Go `m[k]` for `m : map[string]string` on an association list: the
value when present, `""` otherwise. -/
def lookupAnn (m : List (String × String)) (k : String) : String :=
  match m.find? (fun kv => kv.1 = k) with
  | some kv => kv.2
  | none => ""

/-- Go `v, ok := m[k]` — `some v` when the key is present. -/
def lookupAnnOk (m : List (String × String)) (k : String) : Option String :=
  (m.find? (fun kv => kv.1 = k)).map (fun kv => kv.2)

/-! ## The artifact classifier

Direct translation of `classifyArtifactType` (registry/client.go,
lines 1427–1496). -/

/-- Classifier `classifyArtifactType(artifactType, annotations)` from
registry/client.go. Returns one of `"signature"`, `"sbom"`, `"vex"`,
`"vulnerability-scan"`, `"attestation"`, `"artifact"`. -/
def classifyArtifactType (artifactType : String)
    (anns : List (String × String)) : String :=
  let atl := lowerStr artifactType
  if subOf "signature" atl || subOf "notary" atl || subOf "cosign" atl then
    "signature"
  else if subOf "sbom" atl || subOf "cyclonedx" atl || subOf "spdx" atl then
    "sbom"
  else if subOf "vex" atl || subOf "openvex" atl then
    "vex"
  else if subOf "vuln" atl || subOf "scan" atl then
    "vulnerability-scan"
  else
    -- annotation-derived predicate-type hint, in source precedence order
    let predType :=
      let p := lookupAnn anns "in-toto.io/predicate-type"
      let p := if p = "" then lookupAnn anns "dev.sigstore.bundle.predicateType" else p
      if p = "" then lookupAnn anns "predicateType" else p
    let fromPred : Option String :=
      if predType ≠ "" then
        let ptl := lowerStr predType
        if subOf "vex" ptl || subOf "openvex" ptl then some "vex"
        else if subOf "sbom" ptl || subOf "cyclonedx" ptl || subOf "spdx" ptl then some "sbom"
        else if subOf "provenance" ptl || subOf "slsa" ptl then some "attestation"
        else if subOf "vuln" ptl then some "vulnerability-scan"
        else none
      else none
    match fromPred with
    | some c => c
    | none =>
      if subOf "sigstore.bundle" atl then
        match lookupAnnOk anns "dev.sigstore.bundle.content" with
        | some content =>
          if subOf "message-signature" (lowerStr content) then "signature"
          else "attestation"
        | none => "attestation"
      else if subOf "attestation" atl || subOf "in-toto" atl || subOf "provenance" atl then
        "attestation"
      else
        "artifact"

/-! ## Referrers and the discovery accumulator

`Referrer` from registry/client.go (lines 129–137); the accumulator is
the `referrers` slice plus `existingDigests` set of `InspectImage`
(lines 210–236), every concurrent write serialized by `referrersMu`, so a
whole discovery run is some sequence of `addReferrer` steps. -/

structure SignatureInfo where
  Issuer : String
  Identity : String
deriving DecidableEq, Repr

structure Referrer where
  /-- the `Type` field of the Go struct (`Type` is reserved in Lean) -/
  Typ : String
  MediaType : String
  Digest : String
  Size : Int
  ArtifactType : String
  Annotations : List (String × String)
  SigInfo : Option SignatureInfo := none
deriving DecidableEq, Repr

/-- The shared accumulator of `InspectImage`: the `referrers` slice and
the `existingDigests` seen-set. -/
structure AccState where
  referrers : List Referrer
  seen : List String
deriving DecidableEq, Repr

def emptyAcc : AccState := ⟨[], []⟩

/-- Accumulator step `addReferrer` (registry/client.go, lines 229–236): check-then-insert
under the mutex; an already-seen digest is skipped entirely. -/
def addReferrer (s : AccState) (r : Referrer) : AccState :=
  if r.Digest ∈ s.seen then s
  else ⟨s.referrers ++ [r], r.Digest :: s.seen⟩

/-- Batch add `addReferrers` (lines 217–226) and any interleaving of concurrent
`addReferrer` calls: a fold of single adds. -/
def addAll (s : AccState) (rs : List Referrer) : AccState :=
  rs.foldl addReferrer s

/-- One whole discovery run: every referrer any mechanism reported, in
the serialization order imposed by the mutex, folded into the initially
empty accumulator. -/
def runDiscovery (adds : List Referrer) : List Referrer :=
  (addAll emptyAcc adds).referrers

/-! ## The attestation extractor

The pure layer-scanning core of `extractAttestationInfo`
(registry/client.go, lines 1243–1337). The network fetch of the manifest
happens before this logic; the manifest (media type and layer list) is
the input here. -/

/-- An OCI descriptor as it appears in a manifest layer list. -/
structure LayerDesc where
  MediaType : String
  Digest : String
  Size : Int
  Annotations : List (String × String)
deriving DecidableEq, Repr

/-- An attestation manifest: its media type and layers (the fields
`extractAttestationInfo` reads after fetching). -/
structure AttManifest where
  MediaType : String
  Layers : List LayerDesc
deriving DecidableEq, Repr

/-- Lines 1244–1250: the layer's predicate type — the in-toto annotation
key if present (even when empty), else cosign's `predicateType` key,
else `""`. -/
def layerPredicateType (l : LayerDesc) : String :=
  match lookupAnnOk l.Annotations "in-toto.io/predicate-type" with
  | some pt => pt
  | none =>
    match lookupAnnOk l.Annotations "predicateType" with
    | some pt => pt
    | none => ""

/-- SBOM predicate match of lines 1258–1261. -/
def sbomPredMatch (ptl : String) : Bool :=
  subOf "spdx" ptl || subOf "cyclonedx" ptl || subOf "sbom" ptl || subOf "syft" ptl

/-- VEX predicate match of lines 1282–1283. -/
def vexPredMatch (ptl : String) : Bool :=
  subOf "vex" ptl || subOf "openvex" ptl

/-- Provenance/attestation predicate match of lines 1302–1303. -/
def provPredMatch (ptl : String) : Bool :=
  subOf "provenance" ptl || subOf "slsa" ptl

/-- Copy of the caller-supplied annotations plus the discovered predicate
type (`annotations := copy(indexAnnotations); annotations[key] = pt`).
Modelled so that lookups see the new binding exactly once. -/
def setAnn (m : List (String × String)) (k v : String) : List (String × String) :=
  m.filter (fun kv => kv.1 ≠ k) ++ [(k, v)]

/-- The referrers one layer contributes (the three independent `if`
blocks of lines 1257–1321, in source order). -/
def layerReferrers (indexAnns : List (String × String)) (l : LayerDesc) :
    List Referrer :=
  let pt := layerPredicateType l
  let ptl := lowerStr pt
  let anns := setAnn indexAnns "in-toto.io/predicate-type" pt
  (if sbomPredMatch ptl then
    [⟨"sbom", l.MediaType, l.Digest, l.Size, pt, anns, none⟩] else []) ++
  (if vexPredMatch ptl then
    [⟨"vex", l.MediaType, l.Digest, l.Size, pt, anns, none⟩] else []) ++
  (if provPredMatch ptl then
    [⟨"attestation", l.MediaType, l.Digest, l.Size, pt, anns, none⟩] else [])

/-- Extraction core of `extractAttestationInfo` after the manifest fetch: scan every layer;
if nothing classified, emit the single generic `attestation` referrer
with the manifest's own digest and the caller-declared size
(lines 1324–1335). -/
def extractAttestationInfo (m : AttManifest) (digest : String) (size : Int)
    (indexAnns : List (String × String)) : List Referrer :=
  let rs := m.Layers.flatMap (layerReferrers indexAnns)
  if rs.isEmpty then
    [⟨"attestation", m.MediaType, digest, size, "attestation", indexAnns, none⟩]
  else rs

/-- The SBOM-layer match of `FetchSBOMContent` (lines 996–1006): that
endpoint reads only the in-toto annotation key and matches the same four
substrings. -/
def fetchSBOMLayerMatch (l : LayerDesc) : Bool :=
  sbomPredMatch (lowerStr (lookupAnn l.Annotations "in-toto.io/predicate-type"))

/-! ## The signature enricher

Control-flow of `extractSignatureInfo` (registry/client.go,
lines 1348–1425). The registry fetch and the external parsers
(`encoding/json` on the manifest, `encoding/pem`, `crypto/x509`,
`encoding/asn1`) sit at the collaborator boundary; their outcomes are
inputs here:

* `layers?` — `none` models `json.Unmarshal` failing on the fetched
  manifest, `some layers` gives each layer's annotation map;
* `pemDecode` — `pem.Decode`: `none` models a nil block, `some bytes`
  the block's `Bytes` (kept opaque as a string);
* `parseCert` — `x509.ParseCertificate` on those bytes.

An extension's `asn1utf8` is `some s` when `asn1.Unmarshal` into a
string succeeds with value `s`, and `raw` is `string(ext.Value)`. -/

structure CertExtension where
  oid : List Nat
  asn1utf8 : Option String
  raw : String
deriving DecidableEq, Repr

structure CertData where
  emails : List String
  uris : List String
  extensions : List CertExtension
deriving DecidableEq, Repr

def oidSigstoreIssuerV1 : List Nat := [1, 3, 6, 1, 4, 1, 57264, 1, 1]
def oidSigstoreIssuerV2 : List Nat := [1, 3, 6, 1, 4, 1, 57264, 1, 8]

/-- Lines 1371–1377: first layer carrying the cosign certificate
annotation (the loop `break`s at the first hit, even an empty one). -/
def findCertPEM (layers : List (List (String × String))) : String :=
  match layers.findSome? (fun anns => lookupAnnOk anns "dev.sigstore.cosign/certificate") with
  | some pem => pem
  | none => ""

/-- Lines 1405–1417: first extension whose OID is one of the two
Sigstore issuer OIDs; ASN.1 UTF8String decoding first, raw bytes as
fallback. -/
def findIssuer (exts : List CertExtension) : String :=
  match exts.find? (fun e => e.oid = oidSigstoreIssuerV1 || e.oid = oidSigstoreIssuerV2) with
  | some e =>
    match e.asn1utf8 with
    | some s => s
    | none => e.raw
  | none => ""

/-- Enricher `extractSignatureInfo` (lines 1348–1425). `Except.error ()` models a
non-nil `error` return; `Except.ok none` models the `nil, nil`
("absent") returns. -/
def extractSignatureInfo (layers? : Option (List (List (String × String))))
    (pemDecode : String → Option String)
    (parseCert : String → Option CertData) :
    Except Unit (Option SignatureInfo) :=
  match layers? with
  | none => .error ()                    -- "failed to parse signature manifest"
  | some layers =>
    let certPEM := findCertPEM layers
    if certPEM = "" then .ok none        -- no certificate: nil, nil
    else
      match pemDecode certPEM with
      | none => .error ()                -- "failed to decode PEM certificate"
      | some blockBytes =>
        match parseCert blockBytes with
        | none => .error ()              -- "failed to parse certificate"
        | some cert =>
          let ident :=
            match cert.emails with
            | e :: _ => e
            | [] =>
              match cert.uris with
              | u :: _ => u
              | [] => ""
          let issuer := findIssuer cert.extensions
          if ident = "" && issuer = "" then .ok none
          else .ok (some ⟨issuer, ident⟩)

/-- Lines 389–398 of `InspectImage`: how the orchestrator consumes the
enricher's result for a signature referrer — an error is absorbed
(`continue`), leaving the referrer unchanged; a success stores the
(possibly absent) info. The loop itself never fails. -/
def applyEnrichment (r : Referrer) (res : Except Unit (Option SignatureInfo)) :
    Referrer :=
  match res with
  | .error _ => r
  | .ok si => { r with SigInfo := si }

/-! ## A byte-level model of the `encoding/json` scanning the unwrapper uses

`fetchAndParseVEXBlob` (registry/client.go, lines 1160–1198) calls
`json.Unmarshal` on raw blob bytes, into a struct with fields
`_type`/`predicateType` (strings), `predicate` (`json.RawMessage`) and
the DSSE fields `payloadType`/`payload` (strings).  We model the JSON
text as `List Char` (one char per byte) and reproduce the relevant
`encoding/json` behaviour:

* a single JSON value, surrounded by optional whitespace, must span the
  whole input;
* unmarshalling a non-object, ill-formed document, or a string-typed
  field whose value is not a string (or `null`) fails — the Go caller
  only observes `err != nil`;
* a `json.RawMessage` field receives the exact byte span of the value
  (leading whitespace skipped), later occurrences of a key overwriting
  earlier ones;
* key-to-field matching is ASCII case-insensitive;
* top-level `null` succeeds and leaves the struct zeroed.

Surrogate-pair combination inside `\uXXXX` escapes is not modelled (a
lone escape decodes to one char); all inputs the claims quantify over
are ASCII. -/

/-- JSON whitespace accepted between tokens (Go scanner). -/
def isWsChar (c : Char) : Bool :=
  c = ' ' || c = '\t' || c = '\n' || c = '\r'

/-- Skip leading JSON whitespace. -/
def skipWs : List Char → List Char
  | c :: rest => if isWsChar c then skipWs rest else c :: rest
  | [] => []

def isHexDig (c : Char) : Bool :=
  c.isDigit || ('a' ≤ c && c ≤ 'f') || ('A' ≤ c && c ≤ 'F')

def hexVal (c : Char) : Nat :=
  if c.isDigit then c.toNat - 48
  else if 'a' ≤ c && c ≤ 'f' then c.toNat - 87
  else c.toNat - 55

/-- A character that needs no escaping inside a JSON string literal. -/
def plainStrChar (c : Char) : Bool :=
  c ≠ '"' && c ≠ '\\' && 0x20 ≤ c.toNat

/-- Scan a JSON string body (opening quote already consumed), decoding
escapes; returns the decoded content and the remainder after the closing
quote. Mirrors the Go scanner's validity rules (no raw control chars,
only the nine legal escapes, `\uXXXX` needs four hex digits). -/
def jstrDecode : List Char → Option (List Char × List Char)
  | [] => none
  | c :: rest =>
    if c = '"' then some ([], rest)
    else if c = '\\' then
      match rest with
      | [] => none
      | e :: rest2 =>
        if e = 'u' then
          match rest2 with
          | h1 :: h2 :: h3 :: h4 :: rest3 =>
            if isHexDig h1 && isHexDig h2 && isHexDig h3 && isHexDig h4 then
              let n := ((hexVal h1 * 16 + hexVal h2) * 16 + hexVal h3) * 16 + hexVal h4
              let ch := if 0xD800 ≤ n && n < 0xE000 then Char.ofNat 0xFFFD else Char.ofNat n
              (jstrDecode rest3).map (fun pr => (ch :: pr.1, pr.2))
            else none
          | _ => none
        else if e = '"' || e = '\\' || e = '/' then
          (jstrDecode rest2).map (fun pr => (e :: pr.1, pr.2))
        else if e = 'b' then (jstrDecode rest2).map (fun pr => (Char.ofNat 0x08 :: pr.1, pr.2))
        else if e = 'f' then (jstrDecode rest2).map (fun pr => (Char.ofNat 0x0C :: pr.1, pr.2))
        else if e = 'n' then (jstrDecode rest2).map (fun pr => ('\n' :: pr.1, pr.2))
        else if e = 'r' then (jstrDecode rest2).map (fun pr => ('\r' :: pr.1, pr.2))
        else if e = 't' then (jstrDecode rest2).map (fun pr => ('\t' :: pr.1, pr.2))
        else none
    else if c.toNat < 0x20 then none
    else (jstrDecode rest).map (fun pr => (c :: pr.1, pr.2))

/-- Scan a JSON string body without building the content. -/
def jstrSkip (s : List Char) : Option (List Char) :=
  (jstrDecode s).map (fun pr => pr.2)

/-- Consume zero or more decimal digits. -/
def skipDigits : List Char → List Char
  | c :: rest => if c.isDigit then skipDigits rest else c :: rest
  | [] => []

/-- Scan a JSON number starting at its first char (`-` or a digit),
following the JSON grammar: int part `0 | [1-9][0-9]*`, optional
fraction `.[0-9]+`, optional exponent `[eE][+-]?[0-9]+`. -/
def skipNumber (s : List Char) : Option (List Char) :=
  let s1 := match s with
    | '-' :: rest => rest
    | _ => s
  let intDone : Option (List Char) :=
    match s1 with
    | '0' :: rest => some rest
    | c :: rest => if c.isDigit then some (skipDigits rest) else none
    | [] => none
  match intDone with
  | none => none
  | some s2 =>
    let s3 : Option (List Char) :=
      match s2 with
      | '.' :: d :: rest => if d.isDigit then some (skipDigits rest) else none
      | '.' :: [] => none
      | _ => some s2
    match s3 with
    | none => none
    | some s4 =>
      match s4 with
      | e :: rest =>
        if e = 'e' || e = 'E' then
          let rest2 := match rest with
            | '+' :: r => r
            | '-' :: r => r
            | _ => rest
          match rest2 with
          | d :: r => if d.isDigit then some (skipDigits r) else none
          | [] => none
        else some s4
      | [] => some s4

/-- Parsing mode of the fueled JSON skipper. -/
inductive JMode where
  | val
  | members
  | elems
deriving DecidableEq

/-- Fueled JSON skipper: consume one value (`.val`), the members of an
object after `{` (`.members`, positioned at a key), or the elements of
an array after `[` (`.elems`, positioned at a value); returns the
remainder. Fuel bounds the nesting/iteration depth; `input.length + 1`
always suffices. -/
def jskip : Nat → JMode → List Char → Option (List Char)
  | 0, _, _ => none
  | fuel + 1, .val, s =>
    match skipWs s with
    | [] => none
    | c :: rest =>
      if c = '"' then jstrSkip rest
      else if c = '\x7b' then
        match skipWs rest with
        | [] => jskip fuel .members []
        | c2 :: r2 =>
          if c2 = '\x7d' then some r2 else jskip fuel .members (c2 :: r2)
      else if c = '[' then
        match skipWs rest with
        | [] => jskip fuel .elems []
        | c2 :: r2 =>
          if c2 = ']' then some r2 else jskip fuel .elems (c2 :: r2)
      else if c = 't' then
        match rest with
        | 'r' :: 'u' :: 'e' :: r => some r
        | _ => none
      else if c = 'f' then
        match rest with
        | 'a' :: 'l' :: 's' :: 'e' :: r => some r
        | _ => none
      else if c = 'n' then
        match rest with
        | 'u' :: 'l' :: 'l' :: r => some r
        | _ => none
      else if c = '-' || c.isDigit then skipNumber (c :: rest)
      else none
  | fuel + 1, .members, s =>
    match s with
    | [] => none
    | c :: rest =>
      if c = '"' then
        match jstrSkip rest with
        | none => none
        | some r2 =>
          match skipWs r2 with
          | [] => none
          | c3 :: r3 =>
            if c3 = ':' then
              match jskip fuel .val r3 with
              | none => none
              | some r4 =>
                match skipWs r4 with
                | [] => none
                | c5 :: r5 =>
                  if c5 = ',' then jskip fuel .members (skipWs r5)
                  else if c5 = '\x7d' then some r5
                  else none
            else none
      else none
  | fuel + 1, .elems, s =>
    match jskip fuel .val s with
    | none => none
    | some r =>
      match skipWs r with
      | [] => none
      | c2 :: r2 =>
        if c2 = ',' then jskip fuel .elems r2
        else if c2 = ']' then some r2
        else none

/-- Fueled top-level object member scanner that also captures, for each
member, the decoded key and the raw byte span of its value (leading
whitespace excluded — exactly what `json.RawMessage` receives).
Positioned at a key; returns the member list and the remainder after the
closing brace. -/
def jfields : Nat → List Char → Option (List (List Char × List Char) × List Char)
  | 0, _ => none
  | fuel + 1, s =>
    match s with
    | [] => none
    | c :: rest =>
      if c = '"' then
        match jstrDecode rest with
        | none => none
        | some (key, r2) =>
          match skipWs r2 with
          | [] => none
          | c3 :: r3 =>
            if c3 = ':' then
              let r3w := skipWs r3
              match jskip fuel .val r3w with
              | none => none
              | some r4 =>
                let span := r3w.take (r3w.length - r4.length)
                match skipWs r4 with
                | [] => none
                | c5 :: r5 =>
                  if c5 = ',' then
                    match jfields fuel (skipWs r5) with
                    | some (fs, rfin) => some ((key, span) :: fs, rfin)
                    | none => none
                  else if c5 = '\x7d' then some ([(key, span)], r5)
                  else none
            else none
      else none

/-- Effect of `json.Unmarshal(s, &someStruct)` up to field routing:
`some fields` when the input is exactly one well-formed top-level object
(its members, in order) or `null` (no members); `none` when the input is
ill-formed or not an object — the Go caller then sees `err != nil`. -/
def jsonTopFields (s : List Char) : Option (List (List Char × List Char)) :=
  match skipWs s with
  | [] => none
  | c :: rest =>
    if c = '\x7b' then
      match skipWs rest with
      | [] => none
      | c2 :: r2 =>
        if c2 = '\x7d' then (if (skipWs r2).isEmpty then some [] else none)
        else
          match jfields (s.length + 1) (c2 :: r2) with
          | some (fs, r3) => if (skipWs r3).isEmpty then some fs else none
          | none => none
    else if c = 'n' then
      match rest with
      | 'u' :: 'l' :: 'l' :: r => if (skipWs r).isEmpty then some [] else none
      | _ => none
    else none

/-- Decoding a captured value span into a Go `string` field: the span
must be a JSON string (`some (some content)`), or `null` (`some none`,
leaving the field untouched); anything else is an `Unmarshal` type error
(`none`). -/
def spanToStr (span : List Char) : Option (Option String) :=
  match span with
  | '"' :: rest =>
    (match jstrDecode rest with
     | some (content, []) => some (some (String.mk content))
     | _ => none)
  | 'n' :: 'u' :: 'l' :: 'l' :: [] => some none
  | _ => none

/-- The anonymous struct of `fetchAndParseVEXBlob` (lines 1161–1168):
`_type`, `predicateType`, `predicate` (RawMessage), and the DSSE fields
`payloadType`, `payload`. Zero value: empty strings, empty span. -/
structure AttEnvelope where
  typ : String := ""
  predicateType : String := ""
  predicate : List Char := []
  payloadType : String := ""
  payload : String := ""
deriving DecidableEq, Repr

def lowerChars (l : List Char) : List Char := l.map Char.toLower

/-- Route one decoded object member into the struct (ASCII
case-insensitive tag match; unknown keys ignored; `none` on a type
error for a string-typed field). -/
def applyAttField (a : AttEnvelope) (key span : List Char) : Option AttEnvelope :=
  let k := lowerChars key
  if k = "_type".toList then
    (spanToStr span).map (fun v? => match v? with
      | some v => { a with typ := v }
      | none => a)
  else if k = "predicatetype".toList then
    (spanToStr span).map (fun v? => match v? with
      | some v => { a with predicateType := v }
      | none => a)
  else if k = "predicate".toList then
    some { a with predicate := span }
  else if k = "payloadtype".toList then
    (spanToStr span).map (fun v? => match v? with
      | some v => { a with payloadType := v }
      | none => a)
  else if k = "payload".toList then
    (spanToStr span).map (fun v? => match v? with
      | some v => { a with payload := v }
      | none => a)
  else some a

/-- Model of `json.Unmarshal(data, &attestation)` for the envelope
struct. -/
def unmarshalAttEnv (s : List Char) : Option AttEnvelope :=
  (jsonTopFields s).bind (fun fs =>
    fs.foldlM (fun a kv => applyAttField a kv.1 kv.2) {})

/-- Model of `json.Unmarshal(decoded, &inner)` for the inner struct that
has only a `Predicate json.RawMessage` field (lines 1184–1186): no
string-typed fields, so no type errors — the last `predicate` member's
span, `[]` when absent. -/
def innerUnmarshal (s : List Char) : Option (List Char) :=
  (jsonTopFields s).map (fun fs =>
    fs.foldl (fun acc kv => if lowerChars kv.1 = "predicate".toList then kv.2 else acc) [])

/-! ## Base64 (standard encoding, `encoding/base64`) -/

def b64Alphabet : List Char :=
  "ABCDEFGHIJKLMNOPQRSTUVWXYZabcdefghijklmnopqrstuvwxyz0123456789+/".toList

/-- Digit `n` (0 ≤ n < 64) of the standard alphabet. -/
def b64Digit (n : Nat) : Char := b64Alphabet.getD n 'A'

/-- Inverse of `b64Digit`: position of a char in the alphabet. -/
def b64Index (c : Char) : Option Nat :=
  (b64Alphabet.findIdx? (fun a => a = c))

/-- Standard base64 encoding of a byte sequence (with `=` padding). -/
def b64EncodeBytes : List Nat → List Char
  | [] => []
  | [a] => [b64Digit (a / 4), b64Digit (a % 4 * 16), '=', '=']
  | [a, b] => [b64Digit (a / 4), b64Digit (a % 4 * 16 + b / 16), b64Digit (b % 16 * 4), '=']
  | a :: b :: c :: rest =>
    b64Digit (a / 4) :: b64Digit (a % 4 * 16 + b / 16) ::
    b64Digit (b % 16 * 4 + c / 64) :: b64Digit (c % 64) ::
    b64EncodeBytes rest

/-- Model of `base64.StdEncoding.DecodeString`: four-char groups, `=`
padding only at the very end, `none` on any character outside the
alphabet or a truncated group. -/
def b64DecodeChars : List Char → Option (List Nat)
  | [] => some []
  | c1 :: c2 :: c3 :: c4 :: rest =>
    (match b64Index c1, b64Index c2 with
     | some v1, some v2 =>
       if c3 = '=' then
         if c4 = '=' && rest.isEmpty then some [v1 * 4 + v2 / 16] else none
       else
         match b64Index c3 with
         | some v3 =>
           if c4 = '=' then
             if rest.isEmpty then some [v1 * 4 + v2 / 16, v2 % 16 * 16 + v3 / 4] else none
           else
             match b64Index c4 with
             | some v4 =>
               (b64DecodeChars rest).map
                 (fun bs => (v1 * 4 + v2 / 16) :: (v2 % 16 * 16 + v3 / 4) :: (v3 % 4 * 64 + v4) :: bs)
             | none => none
         | none => none
     | _, _ => none)
  | _ => none

/-! ## The envelope unwrapper of `fetchAndParseVEXBlob` (lines 1160–1198)

Given the blob bytes, produce the bytes handed to the final
`json.Unmarshal(vexData, &vexDoc)` — or the error the function returns
when the DSSE payload fails to base64-decode. -/

/-- Unwrapping step of `fetchAndParseVEXBlob`: `Except.ok vexData` or
`Except.error ()` for the `failed to decode DSSE payload` return. -/
def unwrapVEX (data : List Char) : Except Unit (List Char) :=
  match unmarshalAttEnv data with
  | none => .ok data
  | some att =>
    if att.predicate.isEmpty then
      if att.payload ≠ "" then
        match b64DecodeChars att.payload.toList with
        | none => .error ()
        | some bytes =>
          let decoded := bytes.map Char.ofNat
          match innerUnmarshal decoded with
          | some pred => if pred.isEmpty then .ok decoded else .ok pred
          | none => .ok decoded
      else .ok data
    else .ok att.predicate

/-- A document that is not itself an envelope: unmarshalling it yields
neither a predicate span nor a DSSE payload (or fails altogether) — the
shape of every plain VEX document. -/
def notEnvelope (d : List Char) : Bool :=
  match unmarshalAttEnv d with
  | some a => a.predicate.isEmpty && a.payload == ""
  | none => true

/-- Nonempty and not starting with JSON whitespace (a raw JSON document
with no leading padding). -/
def noLeadWs : List Char → Bool
  | [] => false
  | c :: _ => !isWsChar c

/-! ## The three wrappings of the round-trip claim -/

/-- One `"key":"value"` object member as bytes. -/
def mkStrField (key val : String) : List Char :=
  '"' :: key.toList ++ '"' :: ':' :: '"' :: val.toList ++ ['"']

/-- Wrapping (ii): the document as the `predicate` of an in-toto
statement. -/
def intotoWrap (d : List Char) : List Char :=
  '\x7b' :: mkStrField "_type" "https://in-toto.io/Statement/v0.1" ++
  ',' :: mkStrField "predicateType" "https://openvex.dev/ns" ++
  ',' :: '"' :: "predicate".toList ++ '"' :: ':' :: d ++ ['\x7d']

/-- Wrapping (iii): the in-toto statement base64-encoded as the payload
of a DSSE envelope. -/
def dsseWrap (d : List Char) : List Char :=
  '\x7b' :: mkStrField "payloadType" "application/vnd.in-toto+json" ++
  ',' :: '"' :: "payload".toList ++ '"' :: ':' :: '"' ::
  b64EncodeBytes ((intotoWrap d).map Char.toNat) ++ ['"', '\x7d']

end OciExplorer

namespace OciExplorer

/-! ## Lemmas about the discovery accumulator -/

/-- Invariant maintained by every `addReferrer` step: the seen-set is
exactly the set of accumulated digests, and accumulated digests are
pairwise distinct. -/
def accInv (s : AccState) : Prop :=
  (∀ dg, dg ∈ s.seen ↔ dg ∈ s.referrers.map (fun r => r.Digest)) ∧
  s.referrers.Pairwise (fun a b => a.Digest ≠ b.Digest)

theorem accInv_empty : accInv emptyAcc := by
  constructor
  · intro dg; simp [emptyAcc]
  · simp [emptyAcc]

theorem accInv_add (s : AccState) (r : Referrer) (h : accInv s) :
    accInv (addReferrer s r) := by
  obtain ⟨hseen, hpair⟩ := h
  unfold addReferrer
  by_cases hmem : r.Digest ∈ s.seen
  · simpa [hmem] using ⟨hseen, hpair⟩
  · simp only [hmem, if_false, ite_false]
    constructor
    · intro dg
      simp only [List.mem_cons, List.map_append, List.mem_append, List.map_cons,
        List.map_nil, List.mem_singleton]
      rw [hseen dg]
      tauto
    · rw [List.pairwise_append]
      refine ⟨hpair, by simp, ?_⟩
      intro a ha b hb hcontra
      simp only [List.mem_singleton] at hb
      apply hmem
      apply (hseen r.Digest).2
      rw [← hb, ← hcontra]
      exact List.mem_map_of_mem _ ha

theorem accInv_addAll (rs : List Referrer) (s : AccState) (h : accInv s) :
    accInv (addAll s rs) := by
  induction rs generalizing s with
  | nil => simpa [addAll] using h
  | cons a rs ih =>
    simp only [addAll, List.foldl_cons] at *
    exact ih (addReferrer s a) (accInv_add s a h)

theorem addAll_find (rs : List Referrer) (s : AccState) (hs : accInv s) (d : String) :
    (addAll s rs).referrers.find? (fun r => r.Digest == d) =
      (s.referrers.find? (fun r => r.Digest == d)).or
        (rs.find? (fun r => r.Digest == d)) := by
  induction rs generalizing s with
  | nil => simp [addAll]
  | cons a rs ih =>
    simp only [addAll, List.foldl_cons] at *
    rw [ih (addReferrer s a) (accInv_add s a hs)]
    unfold addReferrer
    by_cases hmem : a.Digest ∈ s.seen
    · simp only [hmem, if_true, ite_true]
      by_cases hd : a.Digest = d
      · have hex : ∃ x ∈ s.referrers, (x.Digest == d) = true := by
          have := (hs.1 a.Digest).1 hmem
          obtain ⟨x, hx, hxd⟩ := List.mem_map.1 this
          exact ⟨x, hx, by simp [hxd, hd]⟩
        have hsome : (s.referrers.find? (fun r => r.Digest == d)).isSome :=
          List.find?_isSome.2 hex
        obtain ⟨y, hy⟩ := Option.isSome_iff_exists.1 hsome
        rw [hy]
        simp
      · have hne : (a.Digest == d) = false := by simp [hd]
        simp [List.find?_cons, hne]
    · simp only [hmem, if_false, ite_false]
      rw [List.find?_append, List.find?_cons]
      by_cases hd : (a.Digest == d) = true
      · rw [hd]
        simp only [List.find?_nil]
        cases hfs : s.referrers.find? (fun r => r.Digest == d) <;>
          simp [List.find?_cons, hd]
      · have hd' : (a.Digest == d) = false := by simp_all
        rw [hd']
        simp only [List.find?_nil]
        cases hfs : s.referrers.find? (fun r => r.Digest == d) <;>
          simp [List.find?_cons, hd']

/-- C1: during one discovery call, for every serialization of the
referrers fed to the accumulator, the final collection has pairwise
distinct digests, and the entry kept for each digest is exactly the
first referrer added with that digest (its category and content
included). -/
theorem discovery_dedup_first_wins (adds : List Referrer) :
    (runDiscovery adds).Pairwise (fun a b => a.Digest ≠ b.Digest) ∧
    ∀ d, (runDiscovery adds).find? (fun r => r.Digest == d) =
      adds.find? (fun r => r.Digest == d) := by
  constructor
  · exact (accInv_addAll adds emptyAcc accInv_empty).2
  · intro d
    have h := addAll_find adds emptyAcc accInv_empty d
    simpa [runDiscovery, emptyAcc] using h

/-- C2 counterexample: a second referrer with the digest already present
carries the reference-digest annotation the kept entry lacks; the add is
skipped whole and the kept entry still lacks the annotation — nothing is
merged. -/
theorem no_annotation_merge_counterexample :
    runDiscovery
      [⟨"sbom", "application/json", "sha256:aaa", 7, "x", [], none⟩,
       ⟨"attestation", "application/json", "sha256:aaa", 9, "y",
         [("vnd.docker.reference.digest", "sha256:ppp")], none⟩] =
      [⟨"sbom", "application/json", "sha256:aaa", 7, "x", [], none⟩] ∧
    ∀ r ∈ runDiscovery
      [⟨"sbom", "application/json", "sha256:aaa", 7, "x", [], none⟩,
       ⟨"attestation", "application/json", "sha256:aaa", 9, "y",
         [("vnd.docker.reference.digest", "sha256:ppp")], none⟩],
      lookupAnnOk r.Annotations "vnd.docker.reference.digest" = none := by
  constructor
  · rfl
  · decide

/-- C2 amended: when a referrer's digest is already in the seen-set, the
add is a complete no-op — the accumulator, in particular the existing
entry for that digest and its annotations, is left entirely unchanged
(no reference-digest annotation is merged in). -/
theorem duplicate_add_is_noop (s : AccState) (r : Referrer)
    (h : r.Digest ∈ s.seen) : addReferrer s r = s := by
  simp [addReferrer, h]

/-- Witness for `duplicate_add_is_noop` at a concrete state. -/
theorem duplicate_add_is_noop_witness :
    ("sha256:aaa" : String) ∈ ["sha256:aaa"] ∧
    addReferrer ⟨[⟨"sbom", "m", "sha256:aaa", 7, "x", [], none⟩], ["sha256:aaa"]⟩
      ⟨"vex", "m2", "sha256:aaa", 9, "y", [("vnd.docker.reference.digest", "sha256:p")], none⟩ =
      ⟨[⟨"sbom", "m", "sha256:aaa", 7, "x", [], none⟩], ["sha256:aaa"]⟩ :=
  ⟨by decide, duplicate_add_is_noop _ _ (by decide)⟩

end OciExplorer

namespace OciExplorer

/-- C3: the four classifier scenarios of the spec, evaluated on
`classifyArtifactType`. -/
theorem classify_scenarios :
    classifyArtifactType "application/vnd.dev.cosign.artifact.sig.v1+json" [] = "signature" ∧
    classifyArtifactType "application/vnd.dsse.envelope.v1+json"
      [("in-toto.io/predicate-type", "https://slsa.dev/provenance/v1")] = "attestation" ∧
    classifyArtifactType "" [("predicateType", "https://openvex.dev/ns")] = "vex" ∧
    classifyArtifactType "application/vnd.example.unknown" [] = "artifact" := by
  refine ⟨by decide, by decide, by decide, by decide⟩

/-- C4 counterexample: an artifact type containing both `sbom` and `vex`
but also `cosign` classifies as `signature`, not `sbom` — the signature
rule precedes the sbom rule, so the claim's unrestricted statement
fails. -/
theorem sbom_vex_precedence_counterexample :
    subOf "sbom" (lowerStr "application/vnd.cosign.sbom.vex+json") = true ∧
    subOf "vex" (lowerStr "application/vnd.cosign.sbom.vex+json") = true ∧
    classifyArtifactType "application/vnd.cosign.sbom.vex+json" [] = "signature" := by
  refine ⟨by decide, by decide, by decide⟩

/-- C4 amended: for every annotation set, an artifact type containing
both `sbom` and `vex` (case-insensitively) and none of the signature
substrings `signature`/`notary`/`cosign` classifies as `sbom`; and for
an empty artifact type whose in-toto predicate-type annotation contains
`vex`, the classifier returns `vex`, never `attestation`. -/
theorem classify_precedence_amended :
    (∀ (a : String) (anns : List (String × String)),
        subOf "sbom" (lowerStr a) = true →
        subOf "vex" (lowerStr a) = true →
        subOf "signature" (lowerStr a) = false →
        subOf "notary" (lowerStr a) = false →
        subOf "cosign" (lowerStr a) = false →
        classifyArtifactType a anns = "sbom") ∧
    (∀ (anns : List (String × String)) (v : String),
        lookupAnn anns "in-toto.io/predicate-type" = v →
        subOf "vex" (lowerStr v) = true →
        classifyArtifactType "" anns = "vex") := by
  constructor
  · intro a anns h1 _h2 h3 h4 h5
    unfold classifyArtifactType
    simp [h1, h3, h4, h5]
  · intro anns v hv h2
    have hvne : v ≠ "" := by
      intro h
      rw [h] at h2
      exact absurd h2 (by decide)
    have e1 : (subOf "signature" (lowerStr "") || subOf "notary" (lowerStr "") ||
        subOf "cosign" (lowerStr "")) = false := by decide
    have e2 : (subOf "sbom" (lowerStr "") || subOf "cyclonedx" (lowerStr "") ||
        subOf "spdx" (lowerStr "")) = false := by decide
    have e3 : (subOf "vex" (lowerStr "") || subOf "openvex" (lowerStr "")) = false := by decide
    have e4 : (subOf "vuln" (lowerStr "") || subOf "scan" (lowerStr "")) = false := by decide
    unfold classifyArtifactType
    simp [hv, e1, e2, e3, e4, hvne, h2]

/-- Witness for `classify_precedence_amended` at concrete inputs. -/
theorem classify_precedence_amended_witness :
    classifyArtifactType "application/vnd.example.sbom.vex+json" [] = "sbom" ∧
    classifyArtifactType ""
      [("in-toto.io/predicate-type", "https://openvex.dev/ns/v0.2.0")] = "vex" :=
  ⟨classify_precedence_amended.1 "application/vnd.example.sbom.vex+json" []
      (by decide) (by decide) (by decide) (by decide) (by decide),
    classify_precedence_amended.2
      [("in-toto.io/predicate-type", "https://openvex.dev/ns/v0.2.0")]
      "https://openvex.dev/ns/v0.2.0" (by decide) (by decide)⟩

end OciExplorer

namespace OciExplorer

/-- Unfolding helper: the referrers contributed by a layer whose only
predicate source is an in-toto annotation. -/
theorem layerReferrers_eval (idx : List (String × String)) (mt dg : String)
    (sz : Int) (p : String) :
    layerReferrers idx ⟨mt, dg, sz, [("in-toto.io/predicate-type", p)]⟩ =
      (if sbomPredMatch (lowerStr p) then
        [⟨"sbom", mt, dg, sz, p, setAnn idx "in-toto.io/predicate-type" p, none⟩] else []) ++
      (if vexPredMatch (lowerStr p) then
        [⟨"vex", mt, dg, sz, p, setAnn idx "in-toto.io/predicate-type" p, none⟩] else []) ++
      (if provPredMatch (lowerStr p) then
        [⟨"attestation", mt, dg, sz, p, setAnn idx "in-toto.io/predicate-type" p, none⟩] else []) := by
  have hpt : layerPredicateType ⟨mt, dg, sz, [("in-toto.io/predicate-type", p)]⟩ = p := by
    simp [layerPredicateType, lookupAnnOk]
  unfold layerReferrers
  rw [hpt]

/-- C5: an attestation manifest with exactly one SPDX-predicate layer
(size `x`) and one SLSA-provenance-predicate layer (size `y`) extracts to
exactly two referrers, `sbom` then `attestation`, each carrying its own
layer's digest and size — not the manifest's digest or declared size. -/
theorem spdx_slsa_extraction (p q mt1 mt2 dg1 dg2 mmt mdg : String)
    (x y msz : Int) (idx : List (String × String))
    (hp1 : subOf "spdx" (lowerStr p) = true)
    (hp2 : vexPredMatch (lowerStr p) = false)
    (hp3 : provPredMatch (lowerStr p) = false)
    (hq1 : provPredMatch (lowerStr q) = true)
    (hq2 : sbomPredMatch (lowerStr q) = false)
    (hq3 : vexPredMatch (lowerStr q) = false) :
    (extractAttestationInfo
        ⟨mmt, [⟨mt1, dg1, x, [("in-toto.io/predicate-type", p)]⟩,
               ⟨mt2, dg2, y, [("in-toto.io/predicate-type", q)]⟩]⟩
        mdg msz idx).map (fun r => (r.Typ, r.Digest, r.Size)) =
      [("sbom", dg1, x), ("attestation", dg2, y)] := by
  have hsb : sbomPredMatch (lowerStr p) = true := by
    simp [sbomPredMatch, hp1]
  unfold extractAttestationInfo
  simp only [List.flatMap_cons, List.flatMap_nil, layerReferrers_eval,
    hsb, hp2, hp3, hq1, hq2, hq3]
  simp

/-- Witness for `spdx_slsa_extraction` with the canonical SPDX and SLSA
predicate types. -/
theorem spdx_slsa_extraction_witness :
    (extractAttestationInfo
        ⟨"application/vnd.oci.image.manifest.v1+json",
         [⟨"application/vnd.in-toto+json", "sha256:L1", 101,
            [("in-toto.io/predicate-type", "https://spdx.dev/Document")]⟩,
          ⟨"application/vnd.in-toto+json", "sha256:L2", 202,
            [("in-toto.io/predicate-type", "https://slsa.dev/provenance/v0.2")]⟩]⟩
        "sha256:MANIFEST" 999 []).map (fun r => (r.Typ, r.Digest, r.Size)) =
      [("sbom", "sha256:L1", 101), ("attestation", "sha256:L2", 202)] :=
  spdx_slsa_extraction "https://spdx.dev/Document" "https://slsa.dev/provenance/v0.2"
    "application/vnd.in-toto+json" "application/vnd.in-toto+json"
    "sha256:L1" "sha256:L2" "application/vnd.oci.image.manifest.v1+json"
    "sha256:MANIFEST" 101 202 999 []
    (by decide) (by decide) (by decide) (by decide) (by decide) (by decide)

/-- C6: when no layer's predicate type matches any SBOM, VEX or
provenance pattern, extraction emits exactly one generic `attestation`
referrer with the manifest's own digest, the caller-declared size and
the caller-supplied annotations. -/
theorem unmatched_layers_generic_attestation (m : AttManifest) (dg : String)
    (sz : Int) (idx : List (String × String))
    (h : m.Layers.all (fun l =>
        !(sbomPredMatch (lowerStr (layerPredicateType l)) ||
          vexPredMatch (lowerStr (layerPredicateType l)) ||
          provPredMatch (lowerStr (layerPredicateType l)))) = true) :
    extractAttestationInfo m dg sz idx =
      [⟨"attestation", m.MediaType, dg, sz, "attestation", idx, none⟩] := by
  have hnil : m.Layers.flatMap (layerReferrers idx) = [] := by
    rw [List.flatMap_eq_nil_iff]
    intro l hl
    have hm := (List.all_eq_true.1 h) l hl
    simp only [Bool.not_eq_true', Bool.or_eq_false_iff] at hm
    obtain ⟨⟨h1, h2⟩, h3⟩ := hm
    simp [layerReferrers, h1, h2, h3]
  unfold extractAttestationInfo
  rw [hnil]
  simp

/-- Witness for `unmatched_layers_generic_attestation` on a manifest
with one unmatched layer. -/
theorem unmatched_layers_generic_attestation_witness :
    extractAttestationInfo
        ⟨"application/vnd.oci.image.manifest.v1+json",
         [⟨"application/json", "sha256:L1", 50,
            [("in-toto.io/predicate-type", "https://example.com/custom-predicate")]⟩]⟩
        "sha256:MANIFEST" 777 [("vnd.docker.reference.digest", "sha256:plat")] =
      [⟨"attestation", "application/vnd.oci.image.manifest.v1+json", "sha256:MANIFEST",
        777, "attestation", [("vnd.docker.reference.digest", "sha256:plat")], none⟩] :=
  unmatched_layers_generic_attestation _ _ _ _ (by decide)

/-- C10: a layer whose predicate-type annotation contains `syft` — even
with none of `sbom`, `cyclonedx`, `spdx` — is still extracted as an
`sbom` referrer carrying that layer's digest and size, and the
`FetchSBOMContent` endpoint's layer match accepts the same predicate. -/
theorem syft_predicate_is_sbom (p mt mmt dg mdg : String) (sz msz : Int)
    (idx : List (String × String))
    (h1 : subOf "syft" (lowerStr p) = true)
    (_h2 : subOf "sbom" (lowerStr p) = false)
    (_h3 : subOf "cyclonedx" (lowerStr p) = false)
    (_h4 : subOf "spdx" (lowerStr p) = false) :
    (∃ r ∈ extractAttestationInfo
        ⟨mmt, [⟨mt, dg, sz, [("in-toto.io/predicate-type", p)]⟩]⟩ mdg msz idx,
        r.Typ = "sbom" ∧ r.Digest = dg ∧ r.Size = sz) ∧
    fetchSBOMLayerMatch ⟨mt, dg, sz, [("in-toto.io/predicate-type", p)]⟩ = true := by
  have hsb : sbomPredMatch (lowerStr p) = true := by
    simp [sbomPredMatch, h1]
  constructor
  · refine ⟨⟨"sbom", mt, dg, sz, p, setAnn idx "in-toto.io/predicate-type" p, none⟩, ?_, rfl, rfl, rfl⟩
    unfold extractAttestationInfo
    simp only [List.flatMap_cons, List.flatMap_nil, layerReferrers_eval, hsb]
    simp
  · simp [fetchSBOMLayerMatch, lookupAnn, hsb]

/-- Witness for `syft_predicate_is_sbom` with a syft-schema predicate
type. -/
theorem syft_predicate_is_sbom_witness :
    (∃ r ∈ extractAttestationInfo
        ⟨"application/vnd.oci.image.manifest.v1+json",
         [⟨"application/json", "sha256:L1", 42,
            [("in-toto.io/predicate-type", "https://syft.dev/schema-1")]⟩]⟩
        "sha256:MANIFEST" 500 [],
        r.Typ = "sbom" ∧ r.Digest = "sha256:L1" ∧ r.Size = 42) ∧
    fetchSBOMLayerMatch ⟨"application/json", "sha256:L1", 42,
        [("in-toto.io/predicate-type", "https://syft.dev/schema-1")]⟩ = true :=
  syft_predicate_is_sbom "https://syft.dev/schema-1" "application/json"
    "application/vnd.oci.image.manifest.v1+json" "sha256:L1" "sha256:MANIFEST"
    42 500 [] (by decide) (by decide) (by decide) (by decide)

end OciExplorer

namespace OciExplorer

/-- C9 counterexample: a malformed signature-manifest JSON makes
`extractSignatureInfo` return an error — it does not return absent, and
the error does reach its caller (which then absorbs it). -/
theorem enricher_parse_error_counterexample :
    extractSignatureInfo none (fun _ => none) (fun _ => none) = .error () := by
  rfl

/-- C9 amended: the enricher fails closed only in the sense that its
caller absorbs failures. On a parse error — malformed manifest JSON,
PEM decode failure, or X.509 parse failure — `extractSignatureInfo`
returns an error (not absent); the orchestrator's enrichment loop
absorbs any error, leaving the referrer unchanged. Absent (no error) is
returned exactly when no certificate annotation is present or when
neither an identity SAN nor a Sigstore issuer extension is found. -/
theorem enricher_fails_closed_amended :
    (∀ (pd : String → Option String) (pc : String → Option CertData),
        extractSignatureInfo none pd pc = .error ()) ∧
    (∀ (layers : List (List (String × String))) pd pc,
        findCertPEM layers = "" →
        extractSignatureInfo (some layers) pd pc = .ok none) ∧
    (∀ (layers : List (List (String × String))) pd pc,
        findCertPEM layers ≠ "" →
        pd (findCertPEM layers) = none →
        extractSignatureInfo (some layers) pd pc = .error ()) ∧
    (∀ (layers : List (List (String × String))) pd pc bs,
        findCertPEM layers ≠ "" →
        pd (findCertPEM layers) = some bs →
        pc bs = none →
        extractSignatureInfo (some layers) pd pc = .error ()) ∧
    (∀ (layers : List (List (String × String))) pd pc bs cert,
        findCertPEM layers ≠ "" →
        pd (findCertPEM layers) = some bs →
        pc bs = some cert →
        cert.emails = [] → cert.uris = [] →
        findIssuer cert.extensions = "" →
        extractSignatureInfo (some layers) pd pc = .ok none) ∧
    (∀ (r : Referrer) (res : Except Unit (Option SignatureInfo)),
        applyEnrichment r res = r ∨
        ∃ si, applyEnrichment r res = { r with SigInfo := si }) := by
  refine ⟨fun pd pc => rfl, ?_, ?_, ?_, ?_, ?_⟩
  · intro layers pd pc h
    simp [extractSignatureInfo, h]
  · intro layers pd pc h hpd
    simp [extractSignatureInfo, h, hpd]
  · intro layers pd pc bs h hpd hpc
    simp [extractSignatureInfo, h, hpd, hpc]
  · intro layers pd pc bs cert h hpd hpc hem hur hiss
    simp [extractSignatureInfo, h, hpd, hpc, hem, hur, hiss]
  · intro r res
    cases res with
    | error e => exact Or.inl rfl
    | ok si => exact Or.inr ⟨si, rfl⟩

/-- Witness for `enricher_fails_closed_amended`: each branch at a
concrete input. -/
theorem enricher_fails_closed_amended_witness :
    extractSignatureInfo none (fun _ => none) (fun _ => none) = .error () ∧
    extractSignatureInfo (some [[("a", "b")]]) (fun _ => none) (fun _ => none) = .ok none ∧
    extractSignatureInfo (some [[("dev.sigstore.cosign/certificate", "PEM")]])
      (fun _ => none) (fun _ => none) = .error () ∧
    extractSignatureInfo (some [[("dev.sigstore.cosign/certificate", "PEM")]])
      (fun _ => some "DER") (fun _ => none) = .error () ∧
    extractSignatureInfo (some [[("dev.sigstore.cosign/certificate", "PEM")]])
      (fun _ => some "DER") (fun _ => some ⟨[], [], []⟩) = .ok none ∧
    (applyEnrichment ⟨"signature", "m", "sha256:s", 1, "a", [], none⟩ (.error ()) =
        ⟨"signature", "m", "sha256:s", 1, "a", [], none⟩ ∨
      ∃ si, applyEnrichment ⟨"signature", "m", "sha256:s", 1, "a", [], none⟩ (.error ()) =
        ⟨"signature", "m", "sha256:s", 1, "a", [], si⟩) :=
  ⟨enricher_fails_closed_amended.1 _ _,
   enricher_fails_closed_amended.2.1 _ _ _ (by decide),
   enricher_fails_closed_amended.2.2.1 _ _ _ (by decide) rfl,
   enricher_fails_closed_amended.2.2.2.1 _ _ _ "DER" (by decide) rfl rfl,
   enricher_fails_closed_amended.2.2.2.2.1 _ _ _ "DER" ⟨[], [], []⟩
     (by decide) rfl rfl rfl rfl (by decide),
   enricher_fails_closed_amended.2.2.2.2.2 _ (.error ())⟩

end OciExplorer

namespace OciExplorer

/-- C7 counterexample: a well-formed JSON envelope whose DSSE `payload`
is not valid base64 makes the unwrapper return an error instead of the
original bytes — it does fail on this parse failure. -/
theorem unwrap_base64_failure_counterexample :
    unwrapVEX ("\x7b\"payload\":\"!!!\"\x7d".toList) = .error () := by
  rfl

/-- C7 amended: the unwrapper returns the original bytes unchanged on
any input that fails to unmarshal as an envelope (non-JSON input
included) or unmarshals with neither a predicate nor a payload; but a
DSSE payload that fails base64 decoding propagates an error to the
caller instead of falling back to the original bytes. -/
theorem unwrap_amended :
    (∀ s : List Char, notEnvelope s = true → unwrapVEX s = .ok s) ∧
    (∀ (s : List Char) (a : AttEnvelope),
        unmarshalAttEnv s = some a →
        a.predicate = [] →
        a.payload ≠ "" →
        b64DecodeChars a.payload.toList = none →
        unwrapVEX s = .error ()) := by
  constructor
  · intro s h
    unfold notEnvelope at h
    unfold unwrapVEX
    cases hm : unmarshalAttEnv s with
    | none => rfl
    | some a =>
      rw [hm] at h
      simp only [Bool.and_eq_true, beq_iff_eq] at h
      obtain ⟨h1, h2⟩ := h
      simp [h1, h2]
  · intro s a hm hp hpl hb
    unfold unwrapVEX
    rw [hm]
    have hb' : b64DecodeChars a.payload.data = none := hb
    simp [hp, hpl, hb']

/-- Witness for `unwrap_amended`: non-JSON bytes come back unchanged;
the bad-base64 envelope errors. -/
theorem unwrap_amended_witness :
    unwrapVEX ("not json".toList) = .ok ("not json".toList) ∧
    unwrapVEX ("\x7b\"payloadType\":\"t\",\"payload\":\"%%%%\"\x7d".toList) = .error () :=
  ⟨unwrap_amended.1 _ (by rfl),
   unwrap_amended.2 _ { payloadType := "t", payload := "%%%%" } (by rfl) rfl
     (by decide) (by rfl)⟩

end OciExplorer

namespace OciExplorer

/-! ## Lemmas toward the round-trip claim -/

theorem skipWs_cons_of (c : Char) (t : List Char) (h : isWsChar c = false) :
    skipWs (c :: t) = c :: t := by
  unfold skipWs
  rw [h]
  simp

theorem jstrDecode_plain (l : List Char) (rest : List Char)
    (h : l.all plainStrChar = true) :
    jstrDecode (l ++ '"' :: rest) = some (l, rest) := by
  induction l with
  | nil =>
    unfold jstrDecode
    simp
  | cons c t ih =>
    rw [List.all_cons, Bool.and_eq_true] at h
    obtain ⟨hc, ht⟩ := h
    unfold plainStrChar at hc
    simp only [Bool.and_eq_true, decide_eq_true_eq, bne_iff_ne, ne_eq,
      decide_eq_true_eq] at hc
    obtain ⟨⟨hq, hbs⟩, hcc⟩ := hc
    have h1 : (c = '"') = False := by simp [hq]
    have h2 : (c = '\\') = False := by simp [hbs]
    have h3 : (c.toNat < 0x20) = False := by
      simp only [eq_iff_iff, iff_false, not_lt]
      exact hcc
    unfold jstrDecode
    simp only [List.cons_append, h1, h2, h3, if_false, ite_false]
    rw [ih ht]
    rfl

theorem jstrSkip_plain (l : List Char) (rest : List Char)
    (h : l.all plainStrChar = true) :
    jstrSkip (l ++ '"' :: rest) = some rest := by
  unfold jstrSkip
  rw [jstrDecode_plain l rest h]
  rfl

theorem jskip_strVal (f : Nat) (l rest : List Char)
    (h : l.all plainStrChar = true) :
    jskip (f + 1) .val ('"' :: l ++ '"' :: rest) = some rest := by
  unfold jskip
  simp only [List.cons_append]
  rw [skipWs_cons_of '"' (l ++ '"' :: rest) (by decide)]
  simp only [if_pos rfl]
  exact jstrSkip_plain l rest h

end OciExplorer

namespace OciExplorer

/-- Fuel monotonicity: a successful skip at some fuel succeeds, with the
same remainder, at any larger fuel. -/
theorem jskip_mono (f : Nat) (m : JMode) (s : List Char) (g : Nat) (r : List Char)
    (hfg : f ≤ g) (h : jskip f m s = some r) : jskip g m s = some r := by
  induction f, m, s using jskip.induct generalizing g r
  case case1 => simp [jskip] at h
  all_goals
    obtain ⟨g', rfl⟩ : ∃ g', g = g' + 1 := ⟨g - 1, by omega⟩
  all_goals
    rw [jskip] at h ⊢
  all_goals
    have hle := Nat.le_of_succ_le_succ hfg
  all_goals
    simp only [*] at h ⊢
  all_goals
    first
    | exact h
    | (rename_i ih
       exact ih g' r (by omega) h)
    | simp_all

end OciExplorer

namespace OciExplorer

theorem b64Digit_index (n : Nat) (h : n < 64) : b64Index (b64Digit n) = some n := by
  have hfin : ∀ i : Fin 64, b64Index (b64Digit i.val) = some i.val := by decide
  exact hfin ⟨n, h⟩

theorem b64Digit_plain (n : Nat) : plainStrChar (b64Digit n) = true := by
  by_cases h : n < 64
  · have hfin : ∀ i : Fin 64, plainStrChar (b64Digit i.val) = true := by decide
    exact hfin ⟨n, h⟩
  · have : b64Alphabet.length ≤ n := by
      have : b64Alphabet.length = 64 := by decide
      omega
    unfold b64Digit
    rw [List.getD_eq_default _ _ this]
    decide

theorem b64Digit_ne_pad (n : Nat) (h : n < 64) : b64Digit n ≠ '=' := by
  have hfin : ∀ i : Fin 64, b64Digit i.val ≠ '=' := by decide
  exact hfin ⟨n, h⟩

theorem b64Encode_all_plain (bs : List Nat) :
    (b64EncodeBytes bs).all plainStrChar = true := by
  have hpad : plainStrChar '=' = true := by decide
  induction bs using b64EncodeBytes.induct with
  | case1 => decide
  | case2 a => simp [b64EncodeBytes, b64Digit_plain, hpad]
  | case3 a b => simp [b64EncodeBytes, b64Digit_plain, hpad]
  | case4 a b c rest ih =>
    simp [b64EncodeBytes, b64Digit_plain, hpad, ih]

theorem b64Encode_roundtrip (bs : List Nat) (h : bs.all (fun b => b < 256) = true) :
    b64DecodeChars (b64EncodeBytes bs) = some bs := by
  induction bs using b64EncodeBytes.induct with
  | case1 => rfl
  | case2 a =>
    simp only [List.all_cons, List.all_nil, Bool.and_true, decide_eq_true_eq] at h
    unfold b64EncodeBytes b64DecodeChars
    rw [b64Digit_index (a / 4) (by omega), b64Digit_index (a % 4 * 16) (by omega)]
    simp
    omega
  | case3 a b =>
    simp only [List.all_cons, List.all_nil, Bool.and_true, Bool.and_eq_true,
      decide_eq_true_eq] at h
    obtain ⟨ha, hb⟩ := h
    unfold b64EncodeBytes b64DecodeChars
    rw [b64Digit_index (a / 4) (by omega), b64Digit_index (a % 4 * 16 + b / 16) (by omega)]
    simp [b64Digit_ne_pad (b % 16 * 4) (by omega), b64Digit_index (b % 16 * 4) (by omega)]
    omega
  | case4 a b c rest ih =>
    simp only [List.all_cons, Bool.and_eq_true, decide_eq_true_eq] at h
    obtain ⟨ha, hb, hc, hrest⟩ := h
    unfold b64EncodeBytes b64DecodeChars
    rw [b64Digit_index (a / 4) (by omega), b64Digit_index (a % 4 * 16 + b / 16) (by omega)]
    simp [b64Digit_ne_pad (b % 16 * 4 + c / 64) (by omega),
      b64Digit_index (b % 16 * 4 + c / 64) (by omega),
      b64Digit_ne_pad (c % 64) (by omega), b64Digit_index (c % 64) (by omega),
      ih hrest]
    refine ⟨by omega, by omega, by omega⟩

theorem b64Encode_ne_nil (a : Nat) (bs : List Nat) :
    b64EncodeBytes (a :: bs) ≠ [] := by
  match bs with
  | [] => simp [b64EncodeBytes]
  | [b] => simp [b64EncodeBytes]
  | b :: c :: rest => simp [b64EncodeBytes]

theorem map_ofNat_toNat (l : List Char) :
    (l.map Char.toNat).map Char.ofNat = l := by
  induction l with
  | nil => rfl
  | cons c t ih => simp [ih, Char.ofNat_toNat]

end OciExplorer

namespace OciExplorer

/-- Walking one `"key":"value",` object member (plain-char key and
value), accumulating the raw string span. -/
theorem jfields_cons_str (f : Nat) (k v restF : List Char)
    (fs : List (List Char × List Char)) (r : List Char)
    (hk : k.all plainStrChar = true) (hv : v.all plainStrChar = true)
    (hrf : skipWs restF = restF)
    (hrec : jfields (f + 1) restF = some (fs, r)) :
    jfields (f + 2) ('"' :: (k ++ '"' :: ':' :: '"' :: (v ++ '"' :: ',' :: restF))) =
      some ((k, '"' :: (v ++ ['"'])) :: fs, r) := by
  have hdec := jstrDecode_plain k (':' :: '"' :: (v ++ '"' :: ',' :: restF)) hk
  have hskipv := jskip_strVal f v (',' :: restF) hv
  show jfields ((f + 1) + 1) _ = _
  unfold jfields
  simp only [List.cons_append, List.append_assoc] at hdec hskipv ⊢
  simp +decide only [hdec, hskipv, hrf, hrec, skipWs_cons_of, if_true]
  have hlen : ('"' :: (v ++ '"' :: ',' :: restF)).length - (',' :: restF).length
      = v.length + 2 := by
    simp only [List.length_cons, List.length_append]
    omega
  rw [hlen]
  have hsplit : ('"' :: (v ++ '"' :: ',' :: restF))
      = ('"' :: (v ++ ['"'])) ++ (',' :: restF) := by simp
  rw [hsplit]
  have hl : v.length + 2 = ('"' :: (v ++ ['"'])).length := by simp
  rw [hl, List.take_left]


end OciExplorer

namespace OciExplorer

/-- Walking a final string-valued member followed by the closing brace. -/
theorem jfields_last_str (f : Nat) (k v r5 : List Char)
    (hk : k.all plainStrChar = true) (hv : v.all plainStrChar = true) :
    jfields (f + 2) ('"' :: (k ++ '"' :: ':' :: '"' :: (v ++ '"' :: '\x7d' :: r5))) =
      some ([(k, '"' :: (v ++ ['"']))], r5) := by
  have hdec := jstrDecode_plain k (':' :: '"' :: (v ++ '"' :: '\x7d' :: r5)) hk
  have hskipv := jskip_strVal f v ('\x7d' :: r5) hv
  show jfields ((f + 1) + 1) _ = _
  unfold jfields
  simp only [List.cons_append, List.append_assoc] at hdec hskipv ⊢
  simp +decide only [hdec, hskipv, skipWs_cons_of, if_true]
  have hlen : ('"' :: (v ++ '"' :: '\x7d' :: r5)).length - ('\x7d' :: r5).length
      = v.length + 2 := by
    simp only [List.length_cons, List.length_append]
    omega
  rw [hlen]
  have hsplit : ('"' :: (v ++ '"' :: '\x7d' :: r5))
      = ('"' :: (v ++ ['"'])) ++ ('\x7d' :: r5) := by simp
  rw [hsplit]
  have hl : v.length + 2 = ('"' :: (v ++ ['"'])).length := by simp
  rw [hl, List.take_left]
  simp

/-- Walking a final member whose value is an arbitrary complete JSON
value (the `predicate` span). -/
theorem jfields_last_abs (f : Nat) (k val r4 r5 : List Char)
    (hk : k.all plainStrChar = true)
    (hnl : skipWs val = val)
    (hskip : jskip f .val val = some r4)
    (h4 : skipWs r4 = '\x7d' :: r5) :
    jfields (f + 1) ('"' :: (k ++ '"' :: ':' :: val)) =
      some ([(k, val.take (val.length - r4.length))], r5) := by
  have hdec := jstrDecode_plain k (':' :: val) hk
  unfold jfields
  simp only [List.cons_append, List.append_assoc] at hdec ⊢
  simp +decide only [hdec, hnl, hskip, h4, skipWs_cons_of, if_true]
  simp

end OciExplorer

namespace OciExplorer

/-- Parsing wrapping (ii): the member list of the in-toto statement
around an arbitrary complete JSON document `d`. -/
theorem jsonTopFields_intoto (d : List Char)
    (hskip : jskip (d.length + 1) .val (d ++ ['\x7d']) = some ['\x7d'])
    (hlead : noLeadWs d = true) :
    jsonTopFields (intotoWrap d) = some [("_type".toList, '"' :: ("https://in-toto.io/Statement/v0.1".toList ++ ['"'])),
            ("predicateType".toList, '"' :: ("https://openvex.dev/ns".toList ++ ['"'])),
            ("predicate".toList, d)] := by
  have hdne : d ≠ [] := by
    intro h
    rw [h] at hlead
    simp [noLeadWs] at hlead
  have hnl : skipWs (d ++ ['\x7d']) = d ++ ['\x7d'] := by
    cases d with
    | nil => exact absurd rfl hdne
    | cons c dt =>
      simp only [List.cons_append]
      exact skipWs_cons_of c _ (by simpa [noLeadWs] using hlead)
  have hskip97 : jskip (d.length + 97) .val (d ++ ['\x7d']) = some ['\x7d'] :=
    jskip_mono _ _ _ _ _ (by omega) hskip
  have hspan : (d ++ ['\x7d']).take ((d ++ ['\x7d']).length - (['\x7d'] : List Char).length) = d := by
    have h1 : (d ++ ['\x7d']).length - (['\x7d'] : List Char).length = d.length := by
      simp only [List.length_append, List.length_cons, List.length_nil]
      omega
    rw [h1, List.take_left]
  have h3 : jfields (d.length + 98) ('"' :: ("predicate".toList ++ '"' :: ':' :: (d ++ ['\x7d']))) =
      some ([("predicate".toList, d)], []) := by
    rw [show d.length + 98 = (d.length + 97) + 1 from rfl]
    rw [jfields_last_abs (d.length + 97) "predicate".toList (d ++ ['\x7d']) ['\x7d'] []
      (by decide) hnl hskip97 (by decide)]
    rw [hspan]
  have h2 : jfields (d.length + 99) ('"' :: ("predicateType".toList ++ '"' :: ':' :: '"' ::
        ("https://openvex.dev/ns".toList ++ '"' :: ',' ::
          ('"' :: ("predicate".toList ++ '"' :: ':' :: (d ++ ['\x7d'])))))) =
      some ([("predicateType".toList, '"' :: ("https://openvex.dev/ns".toList ++ ['"'])),
             ("predicate".toList, d)], []) := by
    rw [show d.length + 99 = (d.length + 97) + 2 from rfl]
    exact jfields_cons_str (d.length + 97) "predicateType".toList
      "https://openvex.dev/ns".toList _ _ _ (by decide) (by decide)
      (skipWs_cons_of '"' _ (by decide)) h3
  have h1 : jfields (d.length + 100) ('"' :: ("_type".toList ++ '"' :: ':' :: '"' ::
        ("https://in-toto.io/Statement/v0.1".toList ++ '"' :: ',' ::
          ('"' :: ("predicateType".toList ++ '"' :: ':' :: '"' ::
        ("https://openvex.dev/ns".toList ++ '"' :: ',' ::
          ('"' :: ("predicate".toList ++ '"' :: ':' :: (d ++ ['\x7d']))))))))) =
      some ([("_type".toList, '"' :: ("https://in-toto.io/Statement/v0.1".toList ++ ['"'])),
            ("predicateType".toList, '"' :: ("https://openvex.dev/ns".toList ++ ['"'])),
            ("predicate".toList, d)], []) := by
    rw [show d.length + 100 = (d.length + 98) + 2 from rfl]
    exact jfields_cons_str (d.length + 98) "_type".toList
      "https://in-toto.io/Statement/v0.1".toList _ _ _ (by decide) (by decide)
      (skipWs_cons_of '"' _ (by decide)) h2
  have hwrap : intotoWrap d = '\x7b' :: ('"' :: ("_type".toList ++ '"' :: ':' :: '"' ::
        ("https://in-toto.io/Statement/v0.1".toList ++ '"' :: ',' ::
          ('"' :: ("predicateType".toList ++ '"' :: ':' :: '"' ::
        ("https://openvex.dev/ns".toList ++ '"' :: ',' ::
          ('"' :: ("predicate".toList ++ '"' :: ':' :: (d ++ ['\x7d']))))))))) := by
    simp [intotoWrap, mkStrField]
  have hlen : (intotoWrap d).length = d.length + 99 := by
    rw [hwrap]
    simp only [List.length_cons, List.length_append, List.length_nil]
    rw [show ("_type".toList).length = 5 from rfl,
       show ("https://in-toto.io/Statement/v0.1".toList).length = 33 from rfl,
       show ("predicateType".toList).length = 13 from rfl,
       show ("https://openvex.dev/ns".toList).length = 22 from rfl,
       show ("predicate".toList).length = 9 from rfl]
    omega
  unfold jsonTopFields
  rw [hlen, hwrap]
  rw [skipWs_cons_of '\x7b' _ (by decide)]
  simp +decide only [skipWs_cons_of]
  rw [show d.length + 99 + 1 = d.length + 100 from rfl, h1]
  simp [skipWs]

end OciExplorer

namespace OciExplorer

/-- Parsing wrapping (iii): the member list of the DSSE envelope whose
payload is the base64-encoded in-toto statement. -/
theorem jsonTopFields_dsse (d : List Char) :
    jsonTopFields (dsseWrap d) = some [("payloadType".toList, '"' :: ("application/vnd.in-toto+json".toList ++ ['"'])),
            ("payload".toList, '"' :: (b64EncodeBytes ((intotoWrap d).map Char.toNat) ++ ['"']))] := by
  set B := b64EncodeBytes ((intotoWrap d).map Char.toNat) with hB
  have hBplain : B.all plainStrChar = true := by
    rw [hB]
    exact b64Encode_all_plain _
  have hL2 : jfields (B.length + 59) ('"' :: ("payload".toList ++ '"' :: ':' :: '"' ::
        (b64EncodeBytes ((intotoWrap d).map Char.toNat) ++ '"' :: '\x7d' :: []))) =
      some ([("payload".toList, '"' :: (B ++ ['"']))], []) := by
    rw [show B.length + 59 = (B.length + 57) + 2 from rfl]
    exact jfields_last_str (B.length + 57) "payload".toList B [] (by decide) hBplain
  have hL1 : jfields (B.length + 60) ('"' :: ("payloadType".toList ++ '"' :: ':' :: '"' ::
        ("application/vnd.in-toto+json".toList ++ '"' :: ',' ::
          ('"' :: ("payload".toList ++ '"' :: ':' :: '"' ::
        (b64EncodeBytes ((intotoWrap d).map Char.toNat) ++ '"' :: '\x7d' :: [])))))) =
      some ([("payloadType".toList, '"' :: ("application/vnd.in-toto+json".toList ++ ['"'])),
            ("payload".toList, '"' :: (b64EncodeBytes ((intotoWrap d).map Char.toNat) ++ ['"']))], []) := by
    rw [show B.length + 60 = (B.length + 58) + 2 from rfl]
    exact jfields_cons_str (B.length + 58) "payloadType".toList
      "application/vnd.in-toto+json".toList _ _ _ (by decide) (by decide)
      (skipWs_cons_of '"' _ (by decide)) hL2
  have hwrap : dsseWrap d = '\x7b' :: ('"' :: ("payloadType".toList ++ '"' :: ':' :: '"' ::
        ("application/vnd.in-toto+json".toList ++ '"' :: ',' ::
          ('"' :: ("payload".toList ++ '"' :: ':' :: '"' ::
        (b64EncodeBytes ((intotoWrap d).map Char.toNat) ++ '"' :: '\x7d' :: [])))))) := by
    simp [dsseWrap, mkStrField]
  have hlen : (dsseWrap d).length = B.length + 59 := by
    rw [hwrap]
    simp only [List.length_cons, List.length_append, List.length_nil]
    rw [show ("payloadType".toList).length = 11 from rfl,
       show ("application/vnd.in-toto+json".toList).length = 28 from rfl,
       show ("payload".toList).length = 7 from rfl]
    rw [← hB]
    omega
  unfold jsonTopFields
  rw [hlen, hwrap]
  rw [skipWs_cons_of '\x7b' _ (by decide)]
  simp +decide only [skipWs_cons_of]
  rw [show B.length + 59 + 1 = B.length + 60 from rfl, hL1]
  simp [skipWs]

end OciExplorer

namespace OciExplorer

/-! ## Unmarshalling the two wrappings -/

theorem spanToStr_str (v : List Char) (h : v.all plainStrChar = true) :
    spanToStr ('"' :: (v ++ ['"'])) = some (some (String.mk v)) := by
  have hd : jstrDecode (v ++ ['"']) = some (v, []) := jstrDecode_plain v [] h
  unfold spanToStr
  simp only [hd]

theorem unmarshalAttEnv_intoto (d : List Char)
    (hskip : jskip (d.length + 1) .val (d ++ ['\x7d']) = some ['\x7d'])
    (hlead : noLeadWs d = true) :
    unmarshalAttEnv (intotoWrap d) =
      some { typ := "https://in-toto.io/Statement/v0.1",
             predicateType := "https://openvex.dev/ns",
             predicate := d, payloadType := "", payload := "" } := by
  unfold unmarshalAttEnv
  rw [jsonTopFields_intoto d hskip hlead]
  rfl

theorem innerUnmarshal_intoto (d : List Char)
    (hskip : jskip (d.length + 1) .val (d ++ ['\x7d']) = some ['\x7d'])
    (hlead : noLeadWs d = true) :
    innerUnmarshal (intotoWrap d) = some d := by
  unfold innerUnmarshal
  rw [jsonTopFields_intoto d hskip hlead]
  rfl

theorem unmarshalAttEnv_dsse (d : List Char) :
    unmarshalAttEnv (dsseWrap d) =
      some { typ := "", predicateType := "", predicate := [],
             payloadType := "application/vnd.in-toto+json",
             payload := String.mk (b64EncodeBytes ((intotoWrap d).map Char.toNat)) } := by
  set B := b64EncodeBytes ((intotoWrap d).map Char.toNat) with hB
  have hBplain : B.all plainStrChar = true := by
    rw [hB]
    exact b64Encode_all_plain _
  have step1 : applyAttField {} "payloadType".toList
      ('"' :: ("application/vnd.in-toto+json".toList ++ ['"'])) =
      some { payloadType := "application/vnd.in-toto+json" } := by rfl
  have step2 : ∀ a : AttEnvelope, applyAttField a "payload".toList ('"' :: (B ++ ['"'])) =
      some { a with payload := String.mk B } := by
    intro a
    have hs := spanToStr_str B hBplain
    unfold applyAttField
    simp +decide only [hs, Option.map_some]
    simp
  unfold unmarshalAttEnv
  rw [jsonTopFields_dsse d]
  rw [← hB]
  simp only [Option.bind_eq_bind, Option.some_bind, List.foldlM_cons, List.foldlM_nil,
    step1, step2]
  rfl


end OciExplorer

namespace OciExplorer

/-- Helper shared by the unwrapper claims: a non-envelope input comes
back unchanged. -/
theorem unwrapVEX_of_notEnvelope (s : List Char) (h : notEnvelope s = true) :
    unwrapVEX s = .ok s := by
  unfold notEnvelope at h
  unfold unwrapVEX
  cases hm : unmarshalAttEnv s with
  | none => rfl
  | some a =>
    rw [hm] at h
    simp only [Bool.and_eq_true, beq_iff_eq] at h
    obtain ⟨h1, h2⟩ := h
    simp [h1, h2]

/-- C8: for every complete, whitespace-free, byte-valued JSON document
that is not itself an envelope, the three wrappings — (i) the raw bytes,
(ii) the document spliced as the `predicate` of an in-toto statement,
(iii) that statement base64-encoded as the payload of a DSSE envelope —
all unwrap to the byte-identical document, so the final
`json.Unmarshal(vexData, &vexDoc)` runs on identical bytes and parses to
identical VEXDocument structures. -/
theorem vex_unwrap_roundtrip (d : List Char)
    (hjson : jskip (d.length + 1) .val (d ++ ['\x7d']) = some ['\x7d'])
    (hlead : noLeadWs d = true)
    (hascii : d.all (fun c => c.toNat < 256) = true)
    (henv : notEnvelope d = true) :
    unwrapVEX d = .ok d ∧
    unwrapVEX (intotoWrap d) = .ok d ∧
    unwrapVEX (dsseWrap d) = .ok d := by
  have hdne : d ≠ [] := by
    intro h
    rw [h] at hlead
    simp [noLeadWs] at hlead
  refine ⟨unwrapVEX_of_notEnvelope d henv, ?_, ?_⟩
  · unfold unwrapVEX
    rw [unmarshalAttEnv_intoto d hjson hlead]
    simp [hdne]
  · set B := b64EncodeBytes ((intotoWrap d).map Char.toNat) with hB
    have hall : (intotoWrap d).all (fun c => decide (c.toNat < 256)) = true := by
      simp +decide [intotoWrap, mkStrField, List.all_append, List.all_cons, hascii]
    have hbytes : ((intotoWrap d).map Char.toNat).all (fun b => decide (b < 256)) = true := by
      simpa [List.all_map, Function.comp] using hall
    have hrt : b64DecodeChars B = some ((intotoWrap d).map Char.toNat) := by
      rw [hB]
      exact b64Encode_roundtrip _ hbytes
    have hBne : B ≠ [] := by
      rw [hB]
      cases hmm : List.map Char.toNat (intotoWrap d) with
      | nil =>
        rw [List.map_eq_nil_iff] at hmm
        exact absurd hmm (by simp [intotoWrap])
      | cons a t =>
        exact b64Encode_ne_nil a t
    have hpay : (String.mk B) ≠ "" := by
      intro hcon
      apply hBne
      simpa using congrArg String.data hcon
    unfold unwrapVEX
    rw [unmarshalAttEnv_dsse d, ← hB]
    have htl : (String.mk B).toList = B := rfl
    simp only [List.isEmpty_nil, if_true, ite_true, ne_eq, hpay, not_false_eq_true,
      htl, hrt, map_ofNat_toNat]
    rw [innerUnmarshal_intoto d hjson hlead]
    simp [hdne]


set_option maxRecDepth 8000

/-- Witness for `vex_unwrap_roundtrip` on a small concrete VEX-shaped
document. -/
theorem vex_unwrap_roundtrip_witness :
    unwrapVEX ("\x7b\"a\":\"b\"\x7d".toList) = .ok ("\x7b\"a\":\"b\"\x7d".toList) ∧
    unwrapVEX (intotoWrap ("\x7b\"a\":\"b\"\x7d".toList)) =
      .ok ("\x7b\"a\":\"b\"\x7d".toList) ∧
    unwrapVEX (dsseWrap ("\x7b\"a\":\"b\"\x7d".toList)) =
      .ok ("\x7b\"a\":\"b\"\x7d".toList) :=
  vex_unwrap_roundtrip _ (by rfl) (by rfl) (by rfl) (by rfl)

end OciExplorer
